import Mathlib

/-!
Verification of the fetch/simplify/paginate pipeline of the `fetch` MCP
server (`src/fetch/src/index.ts` and `src/fetch/src/utils.ts`).

Strings are modelled as `List Char` (`Str`); JavaScript `substring`,
`includes`, `toLowerCase` and template literals are modelled by the
corresponding list operations.  `Math.round(x)` on the non-negative
rational `100 * shown / total` is modelled exactly as
`⌊100 * shown / total + 1/2⌋` over `Nat`.
-/

namespace FetchServer

abbrev Str := List Char

/-- JavaScript `hay.includes(needle)`: `needle` occurs contiguously in `hay`. -/
def includesSub (needle : Str) : Str → Bool
  | [] => needle.isEmpty
  | c :: rest => needle.isPrefixOf (c :: rest) || includesSub needle rest

/-- The pagination-exhaustion sentinel from `call_fetch`
(`"<e>No more content available.</e>"`). -/
def sentinel : Str := "<e>No more content available.</e>".data

/-- `Math.round((shown / total) * 100)` computed exactly over `Nat`
(`Math.round` is floor of the argument plus one half). -/
def percentShown (shown total : Nat) : Nat := (200 * shown + total) / (2 * total)

/-- The truncation notice appended by `call_fetch` when the slice is full and
content remains. -/
def truncNotice (percent nextStart : Nat) : Str :=
  "\n\n<e>Content truncated (".data ++ (toString percent).data
    ++ "% shown). Call the fetch tool with start_index=".data
    ++ (toString nextStart).data ++ " to get more content.</e>".data

/-- The continuation notice appended by `call_fetch` when `startIndex > 0` and
the truncation condition does not hold. -/
def contNotice (startIndex percent : Nat) : Str :=
  "\n\n<e>Showing content from index ".data ++ (toString startIndex).data
    ++ " (".data ++ (toString percent).data ++ "% of total).</e>".data

/-- `content.substring(startIndex, startIndex + maxLength)`: the slice of the
content returned by one pagination call (JS `substring` clamps at the end). -/
def pageSlice (text : Str) (startIndex maxLength : Nat) : Str :=
  (text.drop startIndex).take maxLength

/-- The pagination logic of `call_fetch` (index.ts lines 89–110): sentinel when
`startIndex` is at or past the end or the slice is empty, otherwise the slice
followed by the truncation notice, the continuation notice, or nothing. -/
def paginate (text : Str) (startIndex maxLength : Nat) : Str :=
  let originalLength := text.length
  if originalLength ≤ startIndex then sentinel
  else
    let truncatedContent := pageSlice text startIndex maxLength
    if truncatedContent = [] then sentinel
    else
      let actualContentLength := truncatedContent.length
      let remainingContent := originalLength - (startIndex + actualContentLength)
      if actualContentLength = maxLength ∧ 0 < remainingContent then
        truncatedContent
          ++ truncNotice (percentShown (startIndex + actualContentLength) originalLength)
              (startIndex + actualContentLength)
      else if 0 < startIndex then
        truncatedContent
          ++ contNotice startIndex (percentShown (startIndex + actualContentLength) originalLength)
      else truncatedContent

/-! ### The retrying fetcher (`fetch_url` in utils.ts) -/

/-- A JavaScript `Error` value: its `name` and `message`. -/
structure JsError where
  name : Str
  message : Str

/-- The outcome of one underlying `fetch(url, ...)` attempt: either an HTTP
response (with its `ok` flag, status, body text and content-type header) or a
rejection (network error, or `AbortError` on timeout). -/
inductive HttpAttempt where
  | response (ok : Bool) (status : Nat) (body contentType : Str)
  | netError (e : JsError)

/-- The successful result of an attempt, when its response is `ok` (2xx). -/
def okResult : HttpAttempt → Option (Str × Str)
  | .response true _ body contentType => some (body, contentType)
  | _ => none

/-- The error a non-ok attempt produces: a non-2xx response makes `fetch_url`
throw `new Error("HTTP error! status: " + status)`; a rejection is the
rejection's own error. -/
def errorOf : HttpAttempt → JsError
  | .response _ status _ _ => ⟨"Error".data, "HTTP error! status: ".data ++ (toString status).data⟩
  | .netError e => e

/-- `!(lastError.message.includes('HTTP error'))` — retryable unless the error
came from a non-2xx HTTP status. -/
def isNetworkError (e : JsError) : Bool := !(includesSub "HTTP error".data e.message)

/-- `lastError.name === 'AbortError'` — the attempt was aborted by its timeout. -/
def isTimeout (e : JsError) : Bool := e.name == "AbortError".data

/-- State returned by the attempt loop of `fetch_url`: the successful body and
content-type if some attempt succeeded, the last error otherwise, the number
of attempts performed, and the list of inter-attempt sleep durations (ms). -/
structure LoopResult where
  success : Option (Str × Str)
  lastError : Option JsError
  attempts : Nat
  sleeps : List Nat

/-- The attempt loop of `fetch_url` (utils.ts lines 191–223).  `attempts` is an
oracle giving the outcome of each attempt; `fuel` stands for
`retries - attempt`, so the loop guard `attempt < retries` is `fuel ≠ 0`.
Each retry is preceded by a fixed 1000 ms sleep. -/
def fetchLoop (attempts : Nat → HttpAttempt) : Nat → Nat → LoopResult
  | fuel, attempt =>
    match okResult (attempts attempt) with
    | some p => ⟨some p, none, 1, []⟩
    | none =>
      let e := errorOf (attempts attempt)
      match fuel with
      | 0 => ⟨none, some e, 1, []⟩
      | fuel' + 1 =>
        if isNetworkError e || isTimeout e then
          let r := fetchLoop attempts fuel' (attempt + 1)
          ⟨r.success, r.lastError, r.attempts + 1, 1000 :: r.sleeps⟩
        else ⟨none, some e, 1, []⟩

/-- `if lastError.name === 'AbortError' then 'Request timed out' else
lastError.message` (utils.ts lines 228–230). -/
def renderError (e : JsError) : Str :=
  if e.name = "AbortError".data then "Request timed out".data else e.message

/-- The synthetic failure body returned after the loop ends without success
(utils.ts line 231); note it always reports `retries + 1` attempts. -/
def failBody (e : JsError) (retries : Nat) : Str :=
  "<e>Failed to fetch: ".data ++ renderError e ++ " after ".data
    ++ (toString (retries + 1)).data ++ " attempts</e>".data

/-- Result of `fetch_url`: the body and content-type it returns, plus the
observable attempt count and sleep trace. -/
structure FetchResult where
  body : Str
  contentType : Str
  attempts : Nat
  sleeps : List Nat

/-- `fetch_url(url, user_agent, timeout, retries)` over an attempt oracle:
runs the attempt loop and, on failure, formats the synthetic failure body
with content-type `text/plain`. -/
def fetch_url (attempts : Nat → HttpAttempt) (retries : Nat) : FetchResult :=
  let r := fetchLoop attempts retries 0
  match r.success with
  | some (b, ct) => ⟨b, ct, r.attempts, r.sleeps⟩
  | none =>
    match r.lastError with
    | some e => ⟨failBody e retries, "text/plain".data, r.attempts, r.sleeps⟩
    | none => ⟨"<e>Failed to fetch: Unknown error</e>".data, "text/plain".data, r.attempts, r.sleeps⟩

/-! ### Content classification and the `call_fetch` pipeline (index.ts) -/

/-- The binary check of `call_fetch` (index.ts lines 55–61): the content-type
is truthy (non-empty) and contains one of the binary type prefixes. -/
def isBinaryContent (contentType : Str) : Bool :=
  !contentType.isEmpty &&
    (includesSub "image/".data contentType || includesSub "audio/".data contentType
      || includesSub "video/".data contentType || includesSub "application/".data contentType
      || includesSub "font/".data contentType)

/-- The HTML check of `call_fetch` (index.ts lines 74–78): the first 100
characters of the body, lowercased, contain `<html`, or the lowercased
content-type contains `text/html`, or the content-type is empty. -/
def isPageHtml (pageRaw contentType : Str) : Bool :=
  includesSub "<html".data ((pageRaw.take 100).map Char.toLower)
    || includesSub "text/html".data (contentType.map Char.toLower)
    || contentType.isEmpty

/-- Payload classification induced by `call_fetch`'s checks: binary is tested
first, then HTML, else plain text. -/
inductive ContentClass where
  | Binary | Html | PlainText
deriving DecidableEq

/-- The classification the code performs on a (body, content-type) pair. -/
def classify (pageRaw contentType : Str) : ContentClass :=
  if isBinaryContent contentType then .Binary
  else if isPageHtml pageRaw contentType then .Html
  else .PlainText

/-- The refusal message returned for binary content when `raw` is false
(index.ts line 68). -/
def refusalMsg (contentType : Str) : Str :=
  "<e>This URL contains binary content (".data ++ contentType
    ++ ") which cannot be displayed as text. Use raw=true to get the binary data.</e>".data

/-- The envelope of a successful `call_fetch` result (index.ts line 116):
content-type line, content-size line, `Contents of <url>:`, blank line,
then the paginated content. -/
def envelope (url contentType : Str) (originalLength : Nat) (content : Str) : Str :=
  "Content-Type: ".data ++ contentType ++ "\nContent size: ".data
    ++ (toString originalLength).data ++ " characters".data
    ++ "\nContents of ".data ++ url ++ ":\n\n".data ++ content

/-- `call_fetch` after the fetch. `extract` is the external
`extractContentFromHtml` collaborator (JSDOM + Readability + Turndown),
treated as an opaque function; `fetched` is the `[pageRaw, contentType]`
pair `fetch_url` returned.  Mirrors index.ts lines 41–119: empty body check,
binary refusal, optional HTML extraction, then pagination in the envelope. -/
def call_fetch (extract : Str → Str) (url : Str) (fetched : Str × Str)
    (maxLength startIndex : Nat) (raw : Bool) : Str :=
  let pageRaw := fetched.1
  let contentType := fetched.2
  if pageRaw = [] then "Failed to get page text".data
  else if isBinaryContent contentType && !raw then refusalMsg contentType
  else
    let content := if isPageHtml pageRaw contentType && !raw then extract pageRaw else pageRaw
    envelope url contentType content.length (paginate content startIndex maxLength)

/-! ### Spec-side definitions -/

/-- Classifier following claim C6 word for word: binary iff the content-type
contains one of the five type prefixes; otherwise HTML iff the first 100
characters of the body, lowercased, contain `<html`, or the content-type
contains `text/html` (as written, without lowercasing), or the content-type
is empty; otherwise plain text. -/
def classifyClaim (pageRaw contentType : Str) : ContentClass :=
  if includesSub "image/".data contentType || includesSub "audio/".data contentType
      || includesSub "video/".data contentType || includesSub "application/".data contentType
      || includesSub "font/".data contentType then .Binary
  else if includesSub "<html".data ((pageRaw.take 100).map Char.toLower)
      || includesSub "text/html".data contentType || contentType.isEmpty then .Html
  else .PlainText

/-- Classifier of claim C6 amended so that the `text/html` test is performed on
the lowercased content-type, as the code does. -/
def classifyClaimAmended (pageRaw contentType : Str) : ContentClass :=
  if includesSub "image/".data contentType || includesSub "audio/".data contentType
      || includesSub "video/".data contentType || includesSub "application/".data contentType
      || includesSub "font/".data contentType then .Binary
  else if includesSub "<html".data ((pageRaw.take 100).map Char.toLower)
      || includesSub "text/html".data (contentType.map Char.toLower)
      || contentType.isEmpty then .Html
  else .PlainText

/-- Concatenation of a list of strings. -/
def catList : List Str → Str
  | [] => []
  | s :: r => s ++ catList r

/-- One round of the resumed-pagination protocol of claim C2, fuelled: collect
the slice `paginate` returns, and continue at the next start index exactly
when the truncation notice (which reports it) is appended, i.e. when the
slice is full and content remains; stop otherwise (one further call at the
reported index would return the sentinel when the boundary is exact). -/
def chainGo (text : Str) (maxLength : Nat) : Nat → Nat → List Str
  | 0, _ => []
  | fuel + 1, startIndex =>
    if startIndex < text.length ∧ 0 < maxLength then
      if (pageSlice text startIndex maxLength).length = maxLength ∧
          startIndex + (pageSlice text startIndex maxLength).length < text.length then
        pageSlice text startIndex maxLength ::
          chainGo text maxLength fuel (startIndex + (pageSlice text startIndex maxLength).length)
      else [pageSlice text startIndex maxLength]
    else []

/-- The slices collected by repeatedly calling `paginate` from `startIndex`
and following each reported next start index. -/
def chain (text : Str) (maxLength startIndex : Nat) : List Str :=
  chainGo text maxLength (text.length - startIndex) startIndex

/-! ### Helper lemmas -/

theorem length_pageSlice (text : Str) (startIndex maxLength : Nat) :
    (pageSlice text startIndex maxLength).length
      = min maxLength (text.length - startIndex) := by
  simp [pageSlice]

theorem paginate_split (text : Str) (startIndex maxLength : Nat)
    (hm : 0 < maxLength) (hs : startIndex < text.length) :
    paginate text startIndex maxLength =
      if (pageSlice text startIndex maxLength).length = maxLength ∧
          startIndex + (pageSlice text startIndex maxLength).length < text.length then
        pageSlice text startIndex maxLength
          ++ truncNotice
              (percentShown (startIndex + (pageSlice text startIndex maxLength).length) text.length)
              (startIndex + (pageSlice text startIndex maxLength).length)
      else if 0 < startIndex then
        pageSlice text startIndex maxLength
          ++ contNotice startIndex
              (percentShown (startIndex + (pageSlice text startIndex maxLength).length) text.length)
      else pageSlice text startIndex maxLength := by
  have hL := length_pageSlice text startIndex maxLength
  have hne : pageSlice text startIndex maxLength ≠ [] := by
    apply List.ne_nil_of_length_pos
    omega
  simp only [paginate]
  rw [if_neg (by omega), if_neg hne]
  by_cases h1 : (pageSlice text startIndex maxLength).length = maxLength ∧
      startIndex + (pageSlice text startIndex maxLength).length < text.length
  · rw [if_pos (⟨h1.1, by omega⟩ :
      (pageSlice text startIndex maxLength).length = maxLength ∧
        0 < text.length - (startIndex + (pageSlice text startIndex maxLength).length))]
    rw [if_pos h1]
  · have h2 : ¬((pageSlice text startIndex maxLength).length = maxLength ∧
        0 < text.length - (startIndex + (pageSlice text startIndex maxLength).length)) := by
      intro hc
      exact h1 ⟨hc.1, by omega⟩
    rw [if_neg h2, if_neg h1]

theorem includesSub_of_isPrefixOf {needle hay : Str}
    (h : needle.isPrefixOf hay = true) : includesSub needle hay = true := by
  cases hay with
  | nil =>
    have hnil : needle = [] := List.prefix_nil.mp (List.isPrefixOf_iff_prefix.mp h)
    simp [includesSub, hnil]
  | cons c rest => simp [includesSub, h]

theorem httpError_includes (status : Nat) :
    includesSub "HTTP error".data
      ("HTTP error! status: ".data ++ (toString status).data) = true := by
  apply includesSub_of_isPrefixOf
  rw [List.isPrefixOf_iff_prefix]
  have h : "HTTP error! status: ".data = "HTTP error".data ++ "! status: ".data := by decide
  rw [h, List.append_assoc]
  exact List.prefix_append _ _

theorem catList_chainGo (text : Str) (maxLength : Nat) (hm : 0 < maxLength) :
    ∀ fuel startIndex, text.length - startIndex ≤ fuel →
      catList (chainGo text maxLength fuel startIndex) = text.drop startIndex := by
  intro fuel
  induction fuel with
  | zero =>
    intro s hle
    rw [chainGo]
    simp only [catList]
    exact (List.drop_eq_nil_of_le (by omega)).symm
  | succ fuel ih =>
    intro s hle
    have hL := length_pageSlice text s maxLength
    rw [chainGo]
    by_cases h : s < text.length ∧ 0 < maxLength
    · rw [if_pos h]
      by_cases h2 : (pageSlice text s maxLength).length = maxLength ∧
          s + (pageSlice text s maxLength).length < text.length
      · rw [if_pos h2]
        simp only [catList]
        rw [ih (s + (pageSlice text s maxLength).length) (by omega)]
        have hdr : text.drop (s + (pageSlice text s maxLength).length)
            = (text.drop s).drop ((pageSlice text s maxLength).length) := by
          rw [List.drop_drop]
        rw [hdr, h2.1]
        simp only [pageSlice]
        exact List.take_append_drop maxLength (text.drop s)
      · rw [if_neg h2]
        simp only [catList]
        rw [List.append_nil]
        have hge : text.length - s ≤ maxLength := by
          by_cases hLm : (pageSlice text s maxLength).length = maxLength
          · have hnb : ¬(s + (pageSlice text s maxLength).length < text.length) :=
              fun hb => h2 ⟨hLm, hb⟩
            omega
          · omega
        simp only [pageSlice]
        exact List.take_of_length_le (by simp; omega)
    · rw [if_neg h]
      have hsl : text.length ≤ s := by
        by_cases hs : s < text.length
        · exact absurd ⟨hs, hm⟩ h
        · omega
      simp only [catList]
      exact (List.drop_eq_nil_of_le hsl).symm

theorem fetchLoop_allRetryable (attempts : Nat → HttpAttempt)
    (hfail : ∀ i, ∃ e, attempts i = HttpAttempt.netError e ∧
      (e.name = "AbortError".data ∨ includesSub "HTTP error".data e.message = false)) :
    ∀ fuel attempt,
      fetchLoop attempts fuel attempt =
        ⟨none, some (errorOf (attempts (attempt + fuel))), fuel + 1,
          List.replicate fuel 1000⟩ := by
  intro fuel
  induction fuel with
  | zero =>
    intro attempt
    obtain ⟨e, he, _⟩ := hfail attempt
    rw [fetchLoop]
    simp [he, okResult]
  | succ fuel ih =>
    intro attempt
    obtain ⟨e, he, hr⟩ := hfail attempt
    have hok : okResult (attempts attempt) = none := by rw [he]; rfl
    have heOf : errorOf (attempts attempt) = e := by rw [he]; rfl
    have hcond : (isNetworkError e || isTimeout e) = true := by
      rcases hr with h | h
      · have : isTimeout e = true := by simp [isTimeout, h]
        simp [this]
      · have : isNetworkError e = true := by simp [isNetworkError, h]
        simp [this]
    rw [fetchLoop]
    simp only [hok, heOf, hcond, if_pos]
    rw [ih (attempt + 1)]
    simp only [List.replicate_succ]
    have harith : attempt + 1 + fuel = attempt + (fuel + 1) := by omega
    rw [harith]

theorem fetchLoop_allFail (attempts : Nat → HttpAttempt)
    (hfail : ∀ i, okResult (attempts i) = none) :
    ∀ fuel attempt, ∃ k, k ≤ fuel ∧
      fetchLoop attempts fuel attempt =
        ⟨none, some (errorOf (attempts (attempt + k))), k + 1,
          List.replicate k 1000⟩ := by
  intro fuel
  induction fuel with
  | zero =>
    intro attempt
    refine ⟨0, Nat.le_refl 0, ?_⟩
    rw [fetchLoop]
    simp [hfail attempt]
  | succ fuel ih =>
    intro attempt
    by_cases hcond : (isNetworkError (errorOf (attempts attempt))
        || isTimeout (errorOf (attempts attempt))) = true
    · obtain ⟨k, hk, heq⟩ := ih (attempt + 1)
      refine ⟨k + 1, by omega, ?_⟩
      rw [fetchLoop]
      simp only [hfail attempt, hcond, if_pos]
      rw [heq]
      simp only [List.replicate_succ]
      have harith : attempt + 1 + k = attempt + (k + 1) := by omega
      rw [harith]
    · refine ⟨0, by omega, ?_⟩
      rw [fetchLoop]
      simp [hfail attempt, hcond]

theorem fetch_http_error_stops (attempts : Nat → HttpAttempt) (retries status : Nat)
    (b c : Str) (h0 : attempts 0 = HttpAttempt.response false status b c) :
    (fetch_url attempts retries).attempts = 1 ∧
    (fetch_url attempts retries).sleeps = [] := by
  have hok : okResult (attempts 0) = none := by rw [h0]; rfl
  have he : errorOf (attempts 0)
      = ⟨"Error".data, "HTTP error! status: ".data ++ (toString status).data⟩ := by
    rw [h0]; rfl
  have hinc : includesSub "HTTP error".data (errorOf (attempts 0)).message = true := by
    rw [he]
    exact httpError_includes status
  have hnet : isNetworkError (errorOf (attempts 0)) = false := by
    rw [isNetworkError, hinc]
    rfl
  have htim : isTimeout (errorOf (attempts 0)) = false := by
    rw [he, isTimeout]
    rfl
  have hcond : (isNetworkError (errorOf (attempts 0))
      || isTimeout (errorOf (attempts 0))) = false := by
    rw [hnet, htim]
    rfl
  cases retries with
  | zero =>
    rw [fetch_url, fetchLoop]
    simp [hok]
  | succ r =>
    rw [fetch_url, fetchLoop]
    simp [hok, hcond]

/-! ### Claims -/

/-- C1: for every text and every maxLength, if startIndex is at or past the
length of the text, the paginator returns the explicit sentinel
"No more content available." wrapped in the inline `<e>` tag, regardless of
maxLength, and never a silently returned empty string. -/
theorem claim1_sentinel_past_end (text : Str) (startIndex maxLength : Nat)
    (h : text.length ≤ startIndex) :
    paginate text startIndex maxLength = sentinel ∧
    sentinel = "<e>".data ++ "No more content available.".data ++ "</e>".data ∧
    sentinel ≠ [] := by
  refine ⟨?_, by decide, by decide⟩
  simp only [paginate]
  rw [if_pos h]

theorem claim1_witness :
    ("abc".data).length ≤ 5 ∧
    paginate "abc".data 5 7 = sentinel ∧
    sentinel = "<e>".data ++ "No more content available.".data ++ "</e>".data ∧
    sentinel ≠ [] :=
  ⟨by decide, claim1_sentinel_past_end "abc".data 5 7 (by decide)⟩

/-- C2: for maxLength > 0, the slices collected by starting at index 0 and
following each call's reported next start index concatenate to the original
text exactly; and for every startIndex below the length, the paginator's
output begins with the slice text[startIndex, startIndex + maxLength)
clamped to the total length, unaltered. -/
theorem claim2_roundtrip (text : Str) (maxLength : Nat) (hm : 0 < maxLength) :
    catList (chain text maxLength 0) = text ∧
    ∀ startIndex, startIndex < text.length →
      ∃ rest, paginate text startIndex maxLength
        = pageSlice text startIndex maxLength ++ rest := by
  constructor
  · have h := catList_chainGo text maxLength hm (text.length - 0) 0 (Nat.le_refl _)
    simpa [chain] using h
  · intro s hs
    rw [paginate_split text s maxLength hm hs]
    split
    · exact ⟨_, rfl⟩
    · split
      · exact ⟨_, rfl⟩
      · exact ⟨[], (List.append_nil _).symm⟩

theorem claim2_witness :
    catList (chain "abcdef".data 2 0) = "abcdef".data ∧
    (∃ rest, paginate "abcdef".data 2 2 = pageSlice "abcdef".data 2 2 ++ rest) :=
  ⟨(claim2_roundtrip "abcdef".data 2 (by decide)).1,
    (claim2_roundtrip "abcdef".data 2 (by decide)).2 2 (by decide)⟩

/-- C3: for startIndex < length and maxLength > 0, the status suffix after the
slice is the truncation notice (with percentage
round((startIndex + sliceLength) / total * 100) and next start index
startIndex + sliceLength) exactly when the slice is full and content
remains; otherwise the continuation notice exactly when startIndex > 0;
otherwise nothing. -/
theorem claim3_status_suffix (text : Str) (startIndex maxLength : Nat)
    (hm : 0 < maxLength) (hs : startIndex < text.length) :
    paginate text startIndex maxLength =
      if (pageSlice text startIndex maxLength).length = maxLength ∧
          startIndex + (pageSlice text startIndex maxLength).length < text.length then
        pageSlice text startIndex maxLength
          ++ truncNotice
              (percentShown (startIndex + (pageSlice text startIndex maxLength).length) text.length)
              (startIndex + (pageSlice text startIndex maxLength).length)
      else if 0 < startIndex then
        pageSlice text startIndex maxLength
          ++ contNotice startIndex
              (percentShown (startIndex + (pageSlice text startIndex maxLength).length) text.length)
      else pageSlice text startIndex maxLength :=
  paginate_split text startIndex maxLength hm hs

theorem claim3_witness :
    paginate "0123456789".data 0 4 = "0123".data ++ truncNotice 40 4 ∧
    pageSlice "0123456789".data 0 4 = "0123".data ∧
    percentShown 4 10 = 40 := by
  have h := claim3_status_suffix "0123456789".data 0 4 (by decide) (by decide)
  refine ⟨?_, by decide, by decide⟩
  rw [h]
  decide

/-- C4: when every attempt fails with a network error or timeout (a rejection
whose error is an AbortError or whose message does not contain
"HTTP error"), fetch_url performs exactly retries + 1 attempts separated by
fixed 1000 ms pauses before returning the failure body formatted from the
last error; and a fetch whose first attempt is a non-2xx HTTP response
performs exactly 1 attempt with no pause, never retrying. -/
theorem claim4_retry_bound (attempts : Nat → HttpAttempt) (retries : Nat)
    (hfail : ∀ i, ∃ e, attempts i = HttpAttempt.netError e ∧
      (e.name = "AbortError".data ∨ includesSub "HTTP error".data e.message = false)) :
    (fetch_url attempts retries).attempts = retries + 1 ∧
    (fetch_url attempts retries).sleeps = List.replicate retries 1000 ∧
    (fetch_url attempts retries).body = failBody (errorOf (attempts retries)) retries ∧
    ∀ (attempts2 : Nat → HttpAttempt) (status : Nat) (b c : Str),
      attempts2 0 = HttpAttempt.response false status b c →
      (fetch_url attempts2 retries).attempts = 1 ∧
      (fetch_url attempts2 retries).sleeps = [] := by
  have hloop := fetchLoop_allRetryable attempts hfail retries 0
  have hzero : (0 : Nat) + retries = retries := by omega
  rw [hzero] at hloop
  refine ⟨?_, ?_, ?_, ?_⟩
  · rw [fetch_url, hloop]
  · rw [fetch_url, hloop]
  · rw [fetch_url, hloop]
  · intro attempts2 status b c h0
    exact fetch_http_error_stops attempts2 retries status b c h0

theorem claim4_witness :
    (fetch_url (fun _ => HttpAttempt.netError ⟨"TypeError".data, "fetch failed".data⟩) 2).attempts = 3 ∧
    (fetch_url (fun _ => HttpAttempt.netError ⟨"TypeError".data, "fetch failed".data⟩) 2).sleeps
      = List.replicate 2 1000 ∧
    (fetch_url (fun _ => HttpAttempt.response false 404 [] []) 2).attempts = 1 ∧
    (fetch_url (fun _ => HttpAttempt.response false 404 [] []) 2).sleeps = [] := by
  have h := claim4_retry_bound (fun _ => HttpAttempt.netError ⟨"TypeError".data, "fetch failed".data⟩) 2
    (fun i => ⟨⟨"TypeError".data, "fetch failed".data⟩, rfl, Or.inr (by decide)⟩)
  have h2 := h.2.2.2 (fun _ => HttpAttempt.response false 404 [] []) 404 [] [] rfl
  exact ⟨h.1, h.2.1, h2.1, h2.2⟩

/-- C5 counterexample: a fetch whose first attempt fails terminally with HTTP
404 under retries = 2 performs exactly one attempt, yet the failure body
claims "after 3 attempts" — the wrapping text does not state how many
attempts were made. -/
theorem claim5_counterexample :
    (fetch_url (fun _ => HttpAttempt.response false 404 [] []) 2).attempts = 1 ∧
    (fetch_url (fun _ => HttpAttempt.response false 404 [] []) 2).body
      = "<e>Failed to fetch: HTTP error! status: 404 after 3 attempts</e>".data := by
  decide

/-- C5 (amended): when no attempt succeeds, the returned body is the
inline-tagged failure string rendering the last error — "Request timed out"
for an AbortError, the error message otherwise (a non-2xx status having
message "HTTP error! status: code") — wrapped in text stating
retries + 1 attempts (the configured budget, not necessarily the number
performed), and the content-type is reported as plain text. -/
theorem claim5_failure_body (attempts : Nat → HttpAttempt) (retries : Nat)
    (hfail : ∀ i, okResult (attempts i) = none) :
    ∃ k, (fetch_url attempts retries).attempts = k + 1 ∧
      (fetch_url attempts retries).body =
        "<e>Failed to fetch: ".data
          ++ (if (errorOf (attempts k)).name = "AbortError".data
              then "Request timed out".data else (errorOf (attempts k)).message)
          ++ " after ".data ++ (toString (retries + 1)).data ++ " attempts</e>".data ∧
      (fetch_url attempts retries).contentType = "text/plain".data := by
  obtain ⟨k, _, hloop⟩ := fetchLoop_allFail attempts hfail retries 0
  have hzero : (0 : Nat) + k = k := by omega
  rw [hzero] at hloop
  refine ⟨k, ?_, ?_, ?_⟩
  · rw [fetch_url, hloop]
  · rw [fetch_url, hloop]
    simp [failBody, renderError]
  · rw [fetch_url, hloop]

theorem claim5_witness :
    ∃ k, (fetch_url (fun _ => HttpAttempt.response false 404 [] []) 2).attempts = k + 1 ∧
      (fetch_url (fun _ => HttpAttempt.response false 404 [] []) 2).body =
        "<e>Failed to fetch: ".data
          ++ (if (errorOf ((fun _ => HttpAttempt.response false 404 ([] : Str) ([] : Str)) k)).name
                = "AbortError".data
              then "Request timed out".data
              else (errorOf ((fun _ => HttpAttempt.response false 404 ([] : Str) ([] : Str)) k)).message)
          ++ " after ".data ++ (toString (2 + 1)).data ++ " attempts</e>".data ∧
      (fetch_url (fun _ => HttpAttempt.response false 404 [] []) 2).contentType
        = "text/plain".data :=
  claim5_failure_body (fun _ => HttpAttempt.response false 404 [] []) 2 (fun _ => rfl)

/-- C6 counterexample: for body "x" and content-type "TEXT/HTML", the claim's
literal classification (content-type contains "text/html", case-sensitive)
yields PlainText, but the code lowercases the content-type and classifies
Html — the claimed iff fails. -/
theorem claim6_counterexample :
    classify "x".data "TEXT/HTML".data = ContentClass.Html ∧
    classifyClaim "x".data "TEXT/HTML".data = ContentClass.PlainText := by
  decide

/-- C6 (amended): the code's classification is Binary iff the content-type
contains one of image/, audio/, video/, application/, font/; otherwise Html
iff the first 100 characters of the body, lowercased, contain `<html`, or
the content-type, lowercased, contains text/html, or the content-type is
empty; otherwise PlainText.  In particular application/pdf is Binary, a
body starting with the DOCTYPE-plus-html prefix under text/plain is Html,
and an empty content-type is Html. -/
theorem claim6_classification :
    (∀ pageRaw contentType,
      classify pageRaw contentType = classifyClaimAmended pageRaw contentType) ∧
    classify "x".data "application/pdf".data = ContentClass.Binary ∧
    classify "<!DOCTYPE html><html></html>".data "text/plain".data = ContentClass.Html ∧
    classify "x".data [] = ContentClass.Html := by
  refine ⟨?_, by decide, by decide, by decide⟩
  intro p ct
  cases ct with
  | nil =>
    have h1 : includesSub "image/".data ([] : Str) = false := by decide
    have h2 : includesSub "audio/".data ([] : Str) = false := by decide
    have h3 : includesSub "video/".data ([] : Str) = false := by decide
    have h4 : includesSub "application/".data ([] : Str) = false := by decide
    have h5 : includesSub "font/".data ([] : Str) = false := by decide
    simp [classify, classifyClaimAmended, isBinaryContent, isPageHtml, h1, h2, h3, h4, h5]
  | cons c cs =>
    simp [classify, classifyClaimAmended, isBinaryContent, isPageHtml]

/-- C7: whenever the body is non-empty and classified binary and raw is
false, call_fetch short-circuits to the refusal message naming the content
type and instructing the caller to use raw mode — for every extraction
function, so no HTML extraction or simplification touches the payload. -/
theorem claim7_binary_refusal (extract : Str → Str) (url pageRaw contentType : Str)
    (maxLength startIndex : Nat)
    (hne : pageRaw ≠ []) (hbin : isBinaryContent contentType = true) :
    call_fetch extract url (pageRaw, contentType) maxLength startIndex false
      = refusalMsg contentType := by
  simp [call_fetch, hne, hbin]

theorem claim7_witness :
    call_fetch (fun s => s) "http://a".data ("x".data, "image/png".data) 5000 0 false
      = refusalMsg "image/png".data ∧
    refusalMsg "image/png".data =
      ("<e>This URL contains binary content (image/png) which cannot be displayed "
        ++ "as text. Use raw=true to get the binary data.</e>").data :=
  ⟨claim7_binary_refusal (fun s => s) "http://a".data "x".data "image/png".data 5000 0
      (by decide) (by decide),
    by decide⟩

/-- C8 counterexample: the binary-refusal result is returned as a bare text
block, not in the Content-Type/Content size/Contents envelope — it does not
even start with "Content-Type: ". -/
theorem claim8_counterexample :
    call_fetch (fun s => s) "http://a".data ("x".data, "image/png".data) 5000 0 false
      = refusalMsg "image/png".data ∧
    (call_fetch (fun s => s) "http://a".data ("x".data, "image/png".data) 5000 0 false).take 14
      ≠ "Content-Type: ".data := by
  decide

/-- C8 (amended): every result produced once the body is non-empty and the
binary refusal does not fire is the single text block
"Content-Type: ct, newline, Content size: n characters, newline,
Contents of url:, blank line, paginated content" — with the truncation,
continuation and exhaustion annotations appearing inside that content
wrapped in the inline e-tag; the refusal and empty-body short-circuits are
returned as bare text blocks instead. -/
theorem claim8_envelope (extract : Str → Str) (url pageRaw contentType : Str)
    (maxLength startIndex : Nat) (raw : Bool)
    (hne : pageRaw ≠ []) (hnb : (isBinaryContent contentType && !raw) = false) :
    call_fetch extract url (pageRaw, contentType) maxLength startIndex raw =
      "Content-Type: ".data ++ contentType ++ "\nContent size: ".data
        ++ (toString ((if isPageHtml pageRaw contentType && !raw
              then extract pageRaw else pageRaw).length)).data
        ++ " characters".data ++ "\nContents of ".data ++ url ++ ":\n\n".data
        ++ paginate (if isPageHtml pageRaw contentType && !raw
              then extract pageRaw else pageRaw) startIndex maxLength := by
  simp only [call_fetch, envelope]
  rw [if_neg hne, if_neg (by simp [hnb])]

theorem claim8_witness :
    call_fetch (fun s => s) "http://a".data ("hello".data, "text/plain".data) 5000 0 false =
      "Content-Type: ".data ++ "text/plain".data ++ "\nContent size: ".data
        ++ (toString ((if isPageHtml "hello".data "text/plain".data && !false
              then (fun s => s) "hello".data else "hello".data).length)).data
        ++ " characters".data ++ "\nContents of ".data ++ "http://a".data ++ ":\n\n".data
        ++ paginate (if isPageHtml "hello".data "text/plain".data && !false
              then (fun s => s) "hello".data else "hello".data) 0 5000 :=
  claim8_envelope (fun s => s) "http://a".data "hello".data "text/plain".data 5000 0 false
    (by decide) (by decide)

/-- C9: when the fetch succeeds but the decoded body text is empty, the tool
returns exactly the literal "Failed to get page text" — which is neither the
no-more-content sentinel nor a Content-Type envelope — for every
startIndex, maxLength, raw flag and extraction function. -/
theorem claim9_empty_body (extract : Str → Str) (url contentType : Str)
    (maxLength startIndex : Nat) (raw : Bool) :
    call_fetch extract url ([], contentType) maxLength startIndex raw
      = "Failed to get page text".data ∧
    "Failed to get page text".data ≠ sentinel ∧
    ("Failed to get page text".data).take 14 ≠ "Content-Type: ".data := by
  refine ⟨?_, by decide, by decide⟩
  simp [call_fetch]

/-- C10: whenever the continuation notice is appended — the slice is
non-empty, startIndex > 0, and the truncation condition fails — the reported
percentage is exactly 100, because startIndex plus the slice length then
necessarily equals the total length. -/
theorem claim10_continuation_is_100 (text : Str) (startIndex maxLength : Nat)
    (h1 : pageSlice text startIndex maxLength ≠ [])
    (h2 : 0 < startIndex)
    (h3 : ¬((pageSlice text startIndex maxLength).length = maxLength ∧
        startIndex + (pageSlice text startIndex maxLength).length < text.length)) :
    startIndex + (pageSlice text startIndex maxLength).length = text.length ∧
    percentShown (startIndex + (pageSlice text startIndex maxLength).length) text.length = 100 ∧
    paginate text startIndex maxLength
      = pageSlice text startIndex maxLength ++ contNotice startIndex 100 := by
  have hL := length_pageSlice text startIndex maxLength
  have hpos : 0 < (pageSlice text startIndex maxLength).length :=
    List.length_pos.mpr h1
  have hs : startIndex < text.length := by omega
  have hm : 0 < maxLength := by omega
  have hend : startIndex + (pageSlice text startIndex maxLength).length = text.length := by
    by_cases hLm : (pageSlice text startIndex maxLength).length = maxLength
    · have hnb : ¬(startIndex + (pageSlice text startIndex maxLength).length < text.length) :=
        fun hb => h3 ⟨hLm, hb⟩
      omega
    · omega
  have hper : percentShown text.length text.length = 100 := by
    rw [percentShown]
    rw [show 200 * text.length + text.length = text.length + 2 * text.length * 100 by ring]
    rw [Nat.add_mul_div_left _ _ (by omega : 0 < 2 * text.length)]
    rw [Nat.div_eq_of_lt (by omega)]
  refine ⟨hend, by rw [hend, hper], ?_⟩
  rw [paginate_split text startIndex maxLength hm hs, if_neg h3, if_pos h2, hend, hper]

theorem claim10_witness :
    0 + ("0123456789".data.drop 8 |>.take 4).length = 0 + 2 ∧
    paginate "0123456789".data 8 4 = pageSlice "0123456789".data 8 4 ++ contNotice 8 100 ∧
    percentShown (8 + (pageSlice "0123456789".data 8 4).length) ("0123456789".data).length = 100 := by
  have h := claim10_continuation_is_100 "0123456789".data 8 4 (by decide) (by decide) (by decide)
  exact ⟨by decide, h.2.2, h.2.1⟩

end FetchServer
